import Mathlib

/-!
Verification of an Express/Multer/Mongoose image-upload backend.

The development shallowly embeds the functional core of `server.js`:
the multer `fileFilter` and `storage.filename` callbacks, the
`POST /api/upload` and `GET /api/images` handlers, the JSON response
bodies they build, and the final error-handling middleware.  External
collaborators (the HTTP stack, busboy, MongoDB) are represented by the
values they hand the core: the request context, the incoming multipart
file parts, and an optional database error.
-/

namespace ImageServer

/-- JSON values as produced by the handlers.  An object is a list of
key/value pairs in insertion order; a key whose value is `undefined`
in the source is simply omitted from the list, matching what
`JSON.stringify` sends over the wire. -/
inductive Json where
  | str (s : String)
  | num (n : Nat)
  | bool (b : Bool)
  | arr (elems : List Json)
  | obj (fields : List (String × Json))

/-- Field lookup inside a JSON object (first occurrence of the key). -/
def Json.getKey : Json → String → Option Json
  | .obj fs, k => fs.lookup k
  | _, _ => none

/-- The keys of a JSON object, in order. -/
def Json.keys : Json → List String
  | .obj fs => fs.map Prod.fst
  | _ => []

/-- An HTTP response: status code plus JSON body. -/
structure Response where
  status : Nat
  body : Json

/-- Per-request context: the request's scheme (`req.protocol`) and host
(`req.get('host')`), the server mode (`config.NODE_ENV`), and the values
of `Date.now()` and `Math.round(Math.random() * 1E9)` observed while
this request is processed. -/
structure Ctx where
  protocol : String
  host : String
  env : String
  now : Nat
  rand : Nat

/-- One file part of the incoming multipart body, as busboy hands it to
multer: field name, client-supplied file name, client-declared MIME
type, and the raw bytes. -/
structure IncomingFile where
  fieldname : String
  originalname : String
  mimetype : String
  content : List Nat

/-- `config.MAX_FILE_SIZE = 5 * 1024 * 1024`. -/
def MAX_FILE_SIZE : Nat := 5 * 1024 * 1024

/-- The `allowedTypes` list inside `fileFilter` (server.js line 106). -/
def allowedTypes : List String :=
  ["image/jpeg", "image/png", "image/gif", "image/webp"]

/-- Outcome of the multer `fileFilter` callback: `cb(null, true)` or
`cb(new Error(msg), false)`. -/
inductive FilterResult where
  | accept
  | reject (msg : String)

/-- `fileFilter` from server.js lines 105-112: accept when the declared
MIME type is in `allowedTypes`, otherwise reject with a plain `Error`
carrying a descriptive message.  The request argument is received but
never read, exactly as in the source. -/
def fileFilter (req : Ctx) (file : IncomingFile) : FilterResult :=
  if allowedTypes.contains file.mimetype then .accept
  else .reject "Invalid file type. Only images are allowed (JPEG, PNG, GIF, WEBP)"

/-- Helper for `extname`, applied to the reversed character list of a
file name: returns the extension characters in reverse (ending in the
dot), or `none` when there is no dot or the only dot found is the
leading character of the name. -/
def extnameRevAux : List Char → Option (List Char)
  | [] => none
  | c :: rest =>
    if c = '.' then
      if rest.isEmpty then none else some ['.']
    else
      (extnameRevAux rest).map (fun e => c :: e)

/-- `path.extname` restricted to plain file names (no directory
separators): the suffix starting at the last dot, or `""` when the name
has no dot or only a leading dot. -/
def extname (s : String) : String :=
  match extnameRevAux s.data.reverse with
  | none => ""
  | some e => ⟨e.reverse⟩

/-- The `storage.filename` callback from server.js lines 98-102:
`` `${Date.now()}-${Math.round(Math.random() * 1E9)}${ext}` `` with
`ext = path.extname(file.originalname)`. -/
def genFilename (now rand : Nat) (originalname : String) : String :=
  Nat.repr now ++ "-" ++ Nat.repr rand ++ extname originalname

/-- The persisted image metadata document (the mongoose `imageSchema`),
with the store-assigned `_id` and the defaulted `createdAt`. -/
structure ImageRecord where
  id : Nat
  filename : String
  originalname : String
  path : String
  size : Nat
  mimetype : String
  createdAt : Nat

/-- The observable persistent state: the files on disk in the upload
directory (stored name and bytes), the documents in the image
collection, and the next store-assigned identifier. -/
structure ServerState where
  files : List (String × List Nat)
  records : List ImageRecord
  nextId : Nat

/-- An error reaching the express error-handling middleware: either a
`multer.MulterError` or any other `Error` (in particular the plain
`Error` thrown by `fileFilter`). -/
inductive ServerError where
  | multerError (msg : String)
  | plainError (msg : String)

/-- `req.file` as set by multer's disk storage after a successful write. -/
structure StoredFile where
  originalname : String
  mimetype : String
  filename : String
  path : String
  size : Nat

/-- `upload.single('image')` applied to the request's file parts, with
`dir = config.UPLOAD_DIR`.  A file under any field other than `image`,
or a second file, raises `MulterError('LIMIT_UNEXPECTED_FILE')` with
message `Unexpected field`; the custom `fileFilter` runs next and its
rejection propagates as a plain `Error`; a body larger than the
`fileSize` limit raises `MulterError('LIMIT_FILE_SIZE')` with message
`File too large`.  On any error multer removes files it already wrote,
so the state is returned unchanged; on success the file is stored under
a generated name and `req.file` is populated. -/
def multerSingle (dir : String) (req : Ctx) (files : List IncomingFile)
    (st : ServerState) : Except ServerError (Option StoredFile × ServerState) :=
  match files with
  | [] => .ok (none, st)
  | f :: rest =>
    if f.fieldname = "image" then
      match fileFilter req f with
      | .reject msg => .error (.plainError msg)
      | .accept =>
        if MAX_FILE_SIZE < f.content.length then
          .error (.multerError "File too large")
        else if rest.isEmpty then
          let fname := genFilename req.now req.rand f.originalname
          .ok (some ⟨f.originalname, f.mimetype, fname, dir ++ "/" ++ fname,
                     f.content.length⟩,
               { st with files := st.files ++ [(fname, f.content)] })
        else .error (.multerError "Unexpected field")
    else .error (.multerError "Unexpected field")

/-- The conditional `details` field used by every 500 response:
`details: config.NODE_ENV === 'development' ? err.message : undefined`;
an `undefined` value disappears from the serialized object. -/
def detailsField (env msg : String) : List (String × Json) :=
  if env = "development" then [("details", .str msg)] else []

/-- The error-handling middleware from server.js lines 229-244: a
`MulterError` becomes `400` with its message (`err.message || 'File
upload error'`); every other error becomes `500 Internal server error`
with `details` only in development mode. -/
def errorMiddleware (env : String) (e : ServerError) : Response :=
  match e with
  | .multerError msg =>
    ⟨400, .obj [("success", .bool false),
                ("error", .str (if msg = "" then "File upload error" else msg))]⟩
  | .plainError msg =>
    ⟨500, .obj ([("success", .bool false),
                 ("error", .str "Internal server error")] ++ detailsField env msg)⟩

/-- URL construction from server.js line 148:
`` `${req.protocol}://${req.get('host')}/uploads/${savedImage.filename}` ``. -/
def imageUrl (protocol host filename : String) : String :=
  protocol ++ "://" ++ host ++ "/uploads/" ++ filename

/-- `POST /api/upload` (server.js lines 128-169) together with its
`upload.single('image')` middleware and the error middleware that
receives multer-stage failures.  `dbErr = none` models a reachable
database; `dbErr = some msg` models `newImage.save()` throwing an error
with that message, which the handler catches.  Returns the response and
the resulting state. -/
def handleUpload (dir : String) (req : Ctx) (st : ServerState)
    (files : List IncomingFile) (dbErr : Option String) : Response × ServerState :=
  match multerSingle dir req files st with
  | .error e => (errorMiddleware req.env e, st)
  | .ok (none, st1) =>
    (⟨400, .obj [("success", .bool false),
                 ("error", .str "No file uploaded or invalid file type")]⟩, st1)
  | .ok (some f, st1) =>
    match dbErr with
    | some msg =>
      (⟨500, .obj ([("success", .bool false),
                    ("error", .str "Server error during upload")] ++
                   detailsField req.env msg)⟩, st1)
    | none =>
      let saved : ImageRecord :=
        ⟨st1.nextId, f.filename, f.originalname, f.path, f.size, f.mimetype, req.now⟩
      (⟨201, .obj [("success", .bool true),
                   ("message", .str "Image uploaded successfully"),
                   ("data", .obj [("id", .num saved.id),
                                  ("name", .str saved.originalname),
                                  ("url", .str (imageUrl req.protocol req.host saved.filename)),
                                  ("size", .num saved.size),
                                  ("uploadedAt", .num saved.createdAt)])]⟩,
       { st1 with records := st1.records ++ [saved], nextId := st1.nextId + 1 })

/-- Stable insertion into a `createdAt`-descending list; together with
`sortByCreatedAtDesc` this models `Image.find().sort({ createdAt: -1 })`. -/
def insertByCreatedAtDesc (r : ImageRecord) : List ImageRecord → List ImageRecord
  | [] => [r]
  | x :: xs =>
    if r.createdAt ≤ x.createdAt then x :: insertByCreatedAtDesc r xs
    else r :: x :: xs

/-- The record list sorted by `createdAt` descending. -/
def sortByCreatedAtDesc (rs : List ImageRecord) : List ImageRecord :=
  rs.foldr insertByCreatedAtDesc []

/-- The per-record projection built by `GET /api/images`
(server.js lines 179-185). -/
def projectRecord (req : Ctx) (img : ImageRecord) : Json :=
  .obj [("id", .num img.id),
        ("name", .str img.originalname),
        ("url", .str (imageUrl req.protocol req.host img.filename)),
        ("size", .num img.size),
        ("uploadedAt", .num img.createdAt)]

/-- `GET /api/images` (server.js lines 175-200).  `dbErr = none` models
a successful `Image.find().sort({ createdAt: -1 })`; `some msg` models
the query throwing. -/
def handleImages (req : Ctx) (st : ServerState) (dbErr : Option String) : Response :=
  match dbErr with
  | some msg =>
    ⟨500, .obj ([("success", .bool false),
                 ("error", .str "Failed to fetch images")] ++ detailsField req.env msg)⟩
  | none =>
    let response := (sortByCreatedAtDesc st.records).map (projectRecord req)
    ⟨200, .obj [("success", .bool true),
                ("count", .num response.length),
                ("images", .arr response)]⟩

/-- The state of a freshly started server: empty upload directory,
empty collection. -/
def initialState : ServerState := ⟨[], [], 0⟩

/-- A sequence of single-file upload requests applied in order, each
with a reachable database. -/
def applyUploads (reqs : List (Ctx × IncomingFile)) (st : ServerState) : ServerState :=
  reqs.foldl (fun s rf => (handleUpload "uploads" rf.1 s [rf.2] none).2) st

/-- The conditions under which a single-file upload request succeeds:
the part is in field `image`, its declared type is allowed, and it is
within the size limit. -/
def ValidUpload (rf : Ctx × IncomingFile) : Prop :=
  rf.2.fieldname = "image" ∧ rf.2.mimetype ∈ allowedTypes ∧
    rf.2.content.length ≤ MAX_FILE_SIZE

/-! ### Ordering lemmas for the record sort -/

theorem length_insertByCreatedAtDesc (r : ImageRecord) (l : List ImageRecord) :
    (insertByCreatedAtDesc r l).length = l.length + 1 := by
  induction l with
  | nil => rfl
  | cons x xs ih =>
    by_cases h : r.createdAt ≤ x.createdAt <;>
      simp [insertByCreatedAtDesc, h, ih]

theorem perm_insertByCreatedAtDesc (r : ImageRecord) (l : List ImageRecord) :
    List.Perm (insertByCreatedAtDesc r l) (r :: l) := by
  induction l with
  | nil => exact List.Perm.refl _
  | cons x xs ih =>
    by_cases h : r.createdAt ≤ x.createdAt
    · simp only [insertByCreatedAtDesc, if_pos h]
      exact (ih.cons x).trans (List.Perm.swap r x xs)
    · simp only [insertByCreatedAtDesc, if_neg h]
      exact List.Perm.refl _

theorem pairwise_insertByCreatedAtDesc (r : ImageRecord) (l : List ImageRecord)
    (hl : List.Pairwise (fun a b => b.createdAt ≤ a.createdAt) l) :
    List.Pairwise (fun a b => b.createdAt ≤ a.createdAt) (insertByCreatedAtDesc r l) := by
  induction l with
  | nil => simp [insertByCreatedAtDesc]
  | cons x xs ih =>
    rcases List.pairwise_cons.mp hl with ⟨hx, hxs⟩
    by_cases h : r.createdAt ≤ x.createdAt
    · simp only [insertByCreatedAtDesc, if_pos h]
      refine List.pairwise_cons.mpr ⟨?_, ih hxs⟩
      intro y hy
      rcases List.mem_cons.mp ((perm_insertByCreatedAtDesc r xs).mem_iff.mp hy) with h1 | h2
      · exact h1 ▸ h
      · exact hx y h2
    · simp only [insertByCreatedAtDesc, if_neg h]
      push_neg at h
      refine List.pairwise_cons.mpr ⟨?_, hl⟩
      intro y hy
      rcases List.mem_cons.mp hy with rfl | h2
      · exact le_of_lt h
      · exact le_trans (hx y h2) (le_of_lt h)

theorem sortByCreatedAtDesc_perm (rs : List ImageRecord) :
    List.Perm (sortByCreatedAtDesc rs) rs := by
  induction rs with
  | nil => exact List.Perm.refl _
  | cons r rs ih =>
    exact (perm_insertByCreatedAtDesc r (sortByCreatedAtDesc rs)).trans (ih.cons r)

theorem sortByCreatedAtDesc_length (rs : List ImageRecord) :
    (sortByCreatedAtDesc rs).length = rs.length :=
  (sortByCreatedAtDesc_perm rs).length_eq

theorem sortByCreatedAtDesc_pairwise (rs : List ImageRecord) :
    List.Pairwise (fun a b => b.createdAt ≤ a.createdAt) (sortByCreatedAtDesc rs) := by
  induction rs with
  | nil => simp [sortByCreatedAtDesc]
  | cons r rs ih => exact pairwise_insertByCreatedAtDesc r _ ih

theorem insertByCreatedAtDesc_map (g : ImageRecord → ImageRecord)
    (hg : ∀ r, (g r).createdAt = r.createdAt) (r : ImageRecord) (l : List ImageRecord) :
    insertByCreatedAtDesc (g r) (l.map g) = (insertByCreatedAtDesc r l).map g := by
  induction l with
  | nil => simp [insertByCreatedAtDesc]
  | cons x xs ih =>
    by_cases h : r.createdAt ≤ x.createdAt
    · simp [insertByCreatedAtDesc, hg, h, ih]
    · simp [insertByCreatedAtDesc, hg, h]

theorem sortByCreatedAtDesc_map (g : ImageRecord → ImageRecord)
    (hg : ∀ r, (g r).createdAt = r.createdAt) (rs : List ImageRecord) :
    sortByCreatedAtDesc (rs.map g) = (sortByCreatedAtDesc rs).map g := by
  induction rs with
  | nil => rfl
  | cons r rs ih =>
    calc sortByCreatedAtDesc ((r :: rs).map g)
        = insertByCreatedAtDesc (g r) (sortByCreatedAtDesc (rs.map g)) := rfl
      _ = insertByCreatedAtDesc (g r) ((sortByCreatedAtDesc rs).map g) := by rw [ih]
      _ = (insertByCreatedAtDesc r (sortByCreatedAtDesc rs)).map g :=
          insertByCreatedAtDesc_map g hg r _
      _ = (sortByCreatedAtDesc (r :: rs)).map g := rfl

/-! ### Decimal representation lemmas for generated file names -/

/-- The decimal digit characters of a natural number, most significant
first; the recursion shape underlying `Nat.toDigits 10`. -/
def decDigits (n : Nat) : List Char :=
  if n < 10 then [Nat.digitChar n]
  else decDigits (n / 10) ++ [Nat.digitChar (n % 10)]
termination_by n
decreasing_by exact Nat.div_lt_self (by omega) (by omega)

theorem toDigitsCore_eq_decDigits (fuel : Nat) :
    ∀ (n : Nat) (ds : List Char), n < fuel →
      Nat.toDigitsCore 10 fuel n ds = decDigits n ++ ds := by
  induction fuel with
  | zero => intro n ds h; omega
  | succ fuel ih =>
    intro n ds h
    show (if n / 10 = 0 then Nat.digitChar (n % 10) :: ds
          else Nat.toDigitsCore 10 fuel (n / 10) (Nat.digitChar (n % 10) :: ds)) =
        decDigits n ++ ds
    by_cases h10 : n / 10 = 0
    · have hlt : n < 10 := by omega
      have hmod : n % 10 = n := Nat.mod_eq_of_lt hlt
      rw [if_pos h10, decDigits, if_pos hlt, hmod, List.singleton_append]
    · have hge : ¬ n < 10 := by omega
      have hpos : 0 < n := by omega
      have hdiv : n / 10 < n := Nat.div_lt_self hpos (by omega)
      rw [if_neg h10, decDigits, if_neg hge,
        ih (n / 10) (Nat.digitChar (n % 10) :: ds) (by omega),
        List.append_assoc, List.singleton_append]

theorem repr_data_eq_decDigits (n : Nat) : (Nat.repr n).data = decDigits n := by
  show ((Nat.toDigits 10 n).asString).data = decDigits n
  unfold Nat.toDigits
  rw [toDigitsCore_eq_decDigits (n + 1) n [] (Nat.lt_succ_self n), List.append_nil]
  rfl

/-- Numeric value of a decimal digit character. -/
def digitVal (c : Char) : Nat := c.toNat - '0'.toNat

/-- Numeric value of a most-significant-first decimal digit string. -/
def digitsVal (cs : List Char) : Nat :=
  cs.foldl (fun a c => 10 * a + digitVal c) 0

theorem digitVal_digitChar (m : Nat) (hm : m < 10) :
    digitVal (Nat.digitChar m) = m := by
  interval_cases m <;> decide

theorem digitsVal_append_digit (cs : List Char) (c : Char) :
    digitsVal (cs ++ [c]) = 10 * digitsVal cs + digitVal c := by
  simp [digitsVal, List.foldl_append]

theorem digitsVal_decDigits (n : Nat) : digitsVal (decDigits n) = n := by
  induction n using Nat.strong_induction_on with
  | _ n ih =>
    by_cases h : n < 10
    · rw [decDigits, if_pos h]
      show 10 * 0 + digitVal (Nat.digitChar n) = n
      rw [digitVal_digitChar n h]
      omega
    · rw [decDigits, if_neg h, digitsVal_append_digit,
        ih (n / 10) (Nat.div_lt_self (by omega) (by omega)),
        digitVal_digitChar (n % 10) (Nat.mod_lt n (by omega))]
      omega

theorem nat_repr_injective {m n : Nat} (h : Nat.repr m = Nat.repr n) : m = n := by
  have hd : decDigits m = decDigits n := by
    rw [← repr_data_eq_decDigits, ← repr_data_eq_decDigits, h]
  calc m = digitsVal (decDigits m) := (digitsVal_decDigits m).symm
    _ = digitsVal (decDigits n) := by rw [hd]
    _ = n := digitsVal_decDigits n

theorem digitChar_ne_dash (m : Nat) (hm : m < 10) : Nat.digitChar m ≠ '-' := by
  interval_cases m <;> decide

theorem dash_notMem_decDigits (n : Nat) : '-' ∉ decDigits n := by
  induction n using Nat.strong_induction_on with
  | _ n ih =>
    by_cases h : n < 10
    · rw [decDigits, if_pos h]
      simp only [List.mem_singleton]
      exact fun hc => digitChar_ne_dash n h hc.symm
    · rw [decDigits, if_neg h]
      simp only [List.mem_append, List.mem_singleton]
      rintro (hc | hc)
      · exact ih (n / 10) (Nat.div_lt_self (by omega) (by omega)) hc
      · exact digitChar_ne_dash (n % 10) (Nat.mod_lt n (by omega)) hc.symm

theorem dash_notMem_repr (n : Nat) : '-' ∉ (Nat.repr n).data := by
  rw [repr_data_eq_decDigits]
  exact dash_notMem_decDigits n

theorem append_dash_inj : ∀ (a c : List Char) {b d : List Char}, '-' ∉ a → '-' ∉ c →
    a ++ '-' :: b = c ++ '-' :: d → a = c ∧ b = d := by
  intro a
  induction a with
  | nil =>
    intro c b d _ hc h
    cases c with
    | nil => simpa using h
    | cons y ys =>
      simp only [List.nil_append, List.cons_append, List.cons.injEq] at h
      exact absurd (List.mem_cons.mpr (Or.inl h.1)) hc
  | cons x xs ih =>
    intro c b d ha hc h
    cases c with
    | nil =>
      simp only [List.cons_append, List.nil_append, List.cons.injEq] at h
      exact absurd (List.mem_cons.mpr (Or.inl h.1.symm)) ha
    | cons y ys =>
      simp only [List.cons_append, List.cons.injEq] at h
      have hx : '-' ∉ xs := fun hm => ha (List.mem_cons.mpr (Or.inr hm))
      have hy : '-' ∉ ys := fun hm => hc (List.mem_cons.mpr (Or.inr hm))
      obtain ⟨e1, e2⟩ := ih ys hx hy h.2
      exact ⟨by rw [h.1, e1], e2⟩

theorem digitChar_ne_dot (m : Nat) (hm : m < 10) : Nat.digitChar m ≠ '.' := by
  interval_cases m <;> decide

theorem dot_notMem_decDigits (n : Nat) : '.' ∉ decDigits n := by
  induction n using Nat.strong_induction_on with
  | _ n ih =>
    by_cases h : n < 10
    · rw [decDigits, if_pos h]
      simp only [List.mem_singleton]
      exact fun hc => digitChar_ne_dot n h hc.symm
    · rw [decDigits, if_neg h]
      simp only [List.mem_append, List.mem_singleton]
      rintro (hc | hc)
      · exact ih (n / 10) (Nat.div_lt_self (by omega) (by omega)) hc
      · exact digitChar_ne_dot (n % 10) (Nat.mod_lt n (by omega)) hc.symm

theorem dot_notMem_repr (n : Nat) : '.' ∉ (Nat.repr n).data := by
  rw [repr_data_eq_decDigits]
  exact dot_notMem_decDigits n

theorem extnameRevAux_shape : ∀ (l e : List Char),
    extnameRevAux l = some e → ∃ e', e = e' ++ ['.'] := by
  intro l
  induction l with
  | nil =>
    intro e h
    simp [extnameRevAux] at h
  | cons c rest ih =>
    intro e h
    unfold extnameRevAux at h
    by_cases hc : c = '.'
    · rw [if_pos hc] at h
      by_cases hr : rest.isEmpty
      · rw [if_pos hr] at h
        simp at h
      · rw [if_neg hr] at h
        refine ⟨[], ?_⟩
        have he : ['.'] = e := by injection h
        simp [← he]
    · rw [if_neg hc] at h
      obtain ⟨e0, he0, hfe⟩ := Option.map_eq_some'.mp h
      obtain ⟨e', he'⟩ := ih e0 he0
      exact ⟨c :: e', by rw [← hfe, he']; simp⟩

/-- An extension produced by `extname` is empty or starts with a dot. -/
theorem extname_data_shape (s : String) :
    (extname s).data = [] ∨ ∃ l, (extname s).data = '.' :: l := by
  unfold extname
  cases h : extnameRevAux s.data.reverse with
  | none => exact Or.inl rfl
  | some e =>
    obtain ⟨e', he'⟩ := extnameRevAux_shape _ e h
    refine Or.inr ⟨e'.reverse, ?_⟩
    show e.reverse = '.' :: e'.reverse
    rw [he', List.reverse_append]
    rfl

theorem append_ext_inj : ∀ (a b e1 e2 : List Char), '.' ∉ a → '.' ∉ b →
    (e1 = [] ∨ ∃ l, e1 = '.' :: l) → (e2 = [] ∨ ∃ l, e2 = '.' :: l) →
    a ++ e1 = b ++ e2 → a = b ∧ e1 = e2 := by
  intro a
  induction a with
  | nil =>
    intro b e1 e2 _ hb he1 he2 h
    cases b with
    | nil => exact ⟨rfl, by simpa using h⟩
    | cons y ys =>
      simp only [List.nil_append, List.cons_append] at h
      rcases he1 with rfl | ⟨l, rfl⟩
      · exact absurd h.symm (List.cons_ne_nil _ _)
      · have h1 : '.' = y := by injection h
        exact absurd (List.mem_cons.mpr (Or.inl h1)) hb
  | cons x xs ih =>
    intro b e1 e2 ha hb he1 he2 h
    cases b with
    | nil =>
      simp only [List.cons_append, List.nil_append] at h
      rcases he2 with rfl | ⟨l, rfl⟩
      · exact absurd h (List.cons_ne_nil _ _)
      · have h1 : x = '.' := by injection h
        exact absurd (List.mem_cons.mpr (Or.inl h1.symm)) ha
    | cons y ys =>
      simp only [List.cons_append, List.cons.injEq] at h
      have hx : '.' ∉ xs := fun hm => ha (List.mem_cons.mpr (Or.inr hm))
      have hy : '.' ∉ ys := fun hm => hb (List.mem_cons.mpr (Or.inr hm))
      obtain ⟨q1, q2⟩ := ih ys e1 e2 hx hy he1 he2 h.2
      exact ⟨by rw [h.1, q1], q2⟩

/-- Generated filenames determine the draw: since the decimal stem
carries neither a dash nor a dot and an extension is empty or starts
with a dot, equal generated names force equal timestamps, equal random
values and equal extensions — no relation between the two files' names
is assumed. -/
theorem genFilename_inj {t1 r1 t2 r2 : Nat} {n1 n2 : String}
    (h : genFilename t1 r1 n1 = genFilename t2 r2 n2) :
    t1 = t2 ∧ r1 = r2 ∧ extname n1 = extname n2 := by
  unfold genFilename at h
  have hd := congrArg String.data h
  simp only [String.data_append, List.append_assoc, List.singleton_append] at hd
  obtain ⟨e1, e2⟩ := append_dash_inj (Nat.repr t1).data (Nat.repr t2).data
    (dash_notMem_repr t1) (dash_notMem_repr t2) (by simpa using hd)
  obtain ⟨q1, q2⟩ := append_ext_inj (Nat.repr r1).data (Nat.repr r2).data
    (extname n1).data (extname n2).data (dot_notMem_repr r1) (dot_notMem_repr r2)
    (extname_data_shape n1) (extname_data_shape n2) e2
  exact ⟨nat_repr_injective (String.ext e1), nat_repr_injective (String.ext q1),
    String.ext q2⟩

/-! ### Concrete sample inputs used by witnesses and counterexamples -/

/-- A request context in production mode. -/
def sampleCtx : Ctx := ⟨"http", "localhost:3001", "production", 1700000000000, 123456789⟩

/-- A request context in development mode. -/
def devCtx : Ctx := ⟨"https", "api.example.com", "development", 1700000000001, 42⟩

/-- A well-formed PNG upload part. -/
def pngFile : IncomingFile := ⟨"image", "photo.png", "image/png", [137, 80, 78, 71]⟩

/-- A part in field `image` carrying a disallowed media type. -/
def txtFile : IncomingFile := ⟨"image", "doc.txt", "text/plain", [104, 105]⟩

/-- A JPEG part with one set of content and metadata. -/
def bigJpeg : IncomingFile := ⟨"image", "x.jpg", "image/jpeg", [7, 7, 7, 7]⟩

/-- A JPEG part differing from `bigJpeg` in field, name, size and bytes. -/
def smallJpeg : IncomingFile := ⟨"photo", "y.jpeg", "image/jpeg", [1]⟩

/-! ### Claim C1 -/

/-- Claim C1: the upload validator accepts a file if and only if its
client-declared media type is one of image/jpeg, image/png, image/gif,
image/webp; any other declared type is rejected with a descriptive
error message. -/
theorem claim_C1_fileFilter_allowlist (req : Ctx) (f : IncomingFile) :
    (fileFilter req f = .accept ↔
      (f.mimetype = "image/jpeg" ∨ f.mimetype = "image/png" ∨
       f.mimetype = "image/gif" ∨ f.mimetype = "image/webp")) ∧
    (fileFilter req f ≠ .accept →
      fileFilter req f =
        .reject "Invalid file type. Only images are allowed (JPEG, PNG, GIF, WEBP)") := by
  by_cases hc : f.mimetype ∈ allowedTypes
  · constructor
    · constructor
      · intro _
        simpa [allowedTypes] using hc
      · intro _
        simp [fileFilter, hc]
    · intro hne
      exact absurd (by simp [fileFilter, hc]) hne
  · constructor
    · constructor
      · intro hacc
        simp [fileFilter, hc] at hacc
      · intro hd
        exact absurd (by simpa [allowedTypes] using hd) hc
    · intro _
      simp [fileFilter, hc]

/-- Witness for C1 at a concrete accepted input. -/
theorem claim_C1_witness : fileFilter sampleCtx pngFile = .accept :=
  (claim_C1_fileFilter_allowlist sampleCtx pngFile).1.mpr (Or.inr (Or.inl rfl))

/-! ### Claim C2 -/

/-- Claim C2 counterexample: a text/plain upload is answered with HTTP
status 500, not 400 as claimed — the `fileFilter` rejection is a plain
`Error`, so the error middleware does not classify it as a
`MulterError` and falls through to the internal-error branch. -/
theorem claim_C2_counterexample :
    (handleUpload "uploads" sampleCtx initialState [txtFile] none).1.status = 500 ∧
    (handleUpload "uploads" sampleCtx initialState [txtFile] none).1.status ≠ 400 :=
  ⟨rfl, by decide⟩

/-- Claim C2 (amended): an upload whose declared media type is not in
the allow-list is answered with HTTP status 500, and no ImageRecord is
created and no file is persisted by that request (the state is returned
unchanged). -/
theorem claim_C2_amended_badtype_500_no_persist (dir : String) (req : Ctx)
    (st : ServerState) (f : IncomingFile) (rest : List IncomingFile)
    (dbErr : Option String) (h1 : f.fieldname = "image")
    (h2 : f.mimetype ∉ allowedTypes) :
    (handleUpload dir req st (f :: rest) dbErr).1.status = 500 ∧
    (handleUpload dir req st (f :: rest) dbErr).2 = st := by
  simp [handleUpload, multerSingle, fileFilter, h2, h1, errorMiddleware]

/-- Witness for the amended C2 at a concrete text/plain upload. -/
theorem claim_C2_witness :
    (handleUpload "uploads" devCtx initialState [txtFile] none).1.status = 500 ∧
    (handleUpload "uploads" devCtx initialState [txtFile] none).2 = initialState :=
  claim_C2_amended_badtype_500_no_persist "uploads" devCtx initialState txtFile [] none
    rfl (by decide)

/-! ### Claim C3 -/

/-- Claim C3: listing returns the projections of a createdAt-descending
permutation of all stored records (same length, every record present),
and any sequence of N valid uploads grows the store by exactly N
records, so after N successful uploads from the initial state the list
holds exactly N entries. -/
theorem claim_C3_list_sorted_complete (req : Ctx) (st : ServerState) :
    (handleImages req st none).status = 200 ∧
    (handleImages req st none).body.getKey "images" =
      some (.arr ((sortByCreatedAtDesc st.records).map (projectRecord req))) ∧
    List.Perm (sortByCreatedAtDesc st.records) st.records ∧
    (sortByCreatedAtDesc st.records).length = st.records.length ∧
    List.Pairwise (fun a b => b.createdAt ≤ a.createdAt) (sortByCreatedAtDesc st.records) ∧
    ∀ (reqs : List (Ctx × IncomingFile)) (st0 : ServerState),
      (∀ p ∈ reqs, ValidUpload p) →
      (applyUploads reqs st0).records.length = st0.records.length + reqs.length := by
  refine ⟨rfl, ?_, sortByCreatedAtDesc_perm st.records,
    sortByCreatedAtDesc_length st.records, sortByCreatedAtDesc_pairwise st.records, ?_⟩
  · simp [handleImages, Json.getKey, List.lookup]
  · intro reqs
    induction reqs with
    | nil =>
      intro st0 _
      simp [applyUploads]
    | cons p ps ih =>
      intro st0 hv
      obtain ⟨h1, h2, h3⟩ := hv p (List.mem_cons_self p ps)
      have step : ((handleUpload "uploads" p.1 st0 [p.2] none).2).records.length =
          st0.records.length + 1 := by
        simp [handleUpload, multerSingle, fileFilter, h1, h2,
          if_neg (by omega : ¬ MAX_FILE_SIZE < p.2.content.length)]
      have hfold : applyUploads (p :: ps) st0 =
          applyUploads ps (handleUpload "uploads" p.1 st0 [p.2] none).2 := rfl
      rw [hfold, ih _ (fun q hq => hv q (List.mem_cons_of_mem p hq)), step]
      simp only [List.length_cons]
      omega

/-- Witness for C3: one valid upload from the initial state yields one
record. -/
theorem claim_C3_witness :
    (applyUploads [(sampleCtx, pngFile)] initialState).records.length =
      initialState.records.length + [(sampleCtx, pngFile)].length :=
  (claim_C3_list_sorted_complete sampleCtx initialState).2.2.2.2.2
    [(sampleCtx, pngFile)] initialState
    (by
      intro p hp
      simp only [List.mem_singleton] at hp
      subst hp
      exact ⟨rfl, by decide, by decide⟩)

/-! ### Claim C4 -/

/-- Claim C4: a successful upload is answered with 201 and a `data`
object holding exactly the fields id, name (the client's original
name), url, size and uploadedAt of the created record. -/
theorem claim_C4_upload_created_projection (dir : String) (req : Ctx) (st : ServerState)
    (f : IncomingFile) (h1 : f.fieldname = "image") (h2 : f.mimetype ∈ allowedTypes)
    (h3 : f.content.length ≤ MAX_FILE_SIZE) :
    (handleUpload dir req st [f] none).1.status = 201 ∧
    ∃ d : Json,
      (handleUpload dir req st [f] none).1.body.getKey "data" = some d ∧
      d.keys = ["id", "name", "url", "size", "uploadedAt"] ∧
      d.getKey "id" = some (.num st.nextId) ∧
      d.getKey "name" = some (.str f.originalname) ∧
      d.getKey "url" = some (.str (imageUrl req.protocol req.host
        (genFilename req.now req.rand f.originalname))) ∧
      d.getKey "size" = some (.num f.content.length) ∧
      d.getKey "uploadedAt" = some (.num req.now) := by
  have hlt : ¬ MAX_FILE_SIZE < f.content.length := by omega
  have hrun : (handleUpload dir req st [f] none).1 =
      ⟨201, .obj [("success", .bool true),
                  ("message", .str "Image uploaded successfully"),
                  ("data", .obj [("id", .num st.nextId),
                                 ("name", .str f.originalname),
                                 ("url", .str (imageUrl req.protocol req.host
                                   (genFilename req.now req.rand f.originalname))),
                                 ("size", .num f.content.length),
                                 ("uploadedAt", .num req.now)])]⟩ := by
    simp [handleUpload, multerSingle, fileFilter, h1, h2, hlt]
  rw [hrun]
  exact ⟨rfl, _, rfl, rfl, rfl, rfl, rfl, rfl, rfl⟩

/-- Witness for C4 at a concrete PNG upload. -/
theorem claim_C4_witness :
    (handleUpload "uploads" sampleCtx initialState [pngFile] none).1.status = 201 ∧
    ∃ d : Json,
      (handleUpload "uploads" sampleCtx initialState [pngFile] none).1.body.getKey "data" =
        some d ∧
      d.keys = ["id", "name", "url", "size", "uploadedAt"] ∧
      d.getKey "id" = some (.num initialState.nextId) ∧
      d.getKey "name" = some (.str pngFile.originalname) ∧
      d.getKey "url" = some (.str (imageUrl sampleCtx.protocol sampleCtx.host
        (genFilename sampleCtx.now sampleCtx.rand pngFile.originalname))) ∧
      d.getKey "size" = some (.num pngFile.content.length) ∧
      d.getKey "uploadedAt" = some (.num sampleCtx.now) :=
  claim_C4_upload_created_projection "uploads" sampleCtx initialState pngFile rfl
    (by decide) (by decide)

/-! ### Claim C5 -/

/-- Claim C5: the URL built for a stored file is
scheme://host/uploads/filename, with scheme and host taken from the
request context; and the on-disk stored path is never exposed in any
response — list responses are unchanged under arbitrary rewriting of
the records' path fields, and upload responses are unchanged under any
change of the storage directory (which determines the stored path). -/
theorem claim_C5_url_shape_no_storedPath_leak :
    (∀ protocol host filename : String,
        imageUrl protocol host filename =
          protocol ++ "://" ++ host ++ "/uploads/" ++ filename) ∧
    (∀ (req : Ctx) (st : ServerState) (dbErr : Option String)
        (newPath : ImageRecord → String),
        handleImages req
          { st with records := st.records.map (fun r => { r with path := newPath r }) }
          dbErr =
          handleImages req st dbErr) ∧
    (∀ (dir1 dir2 : String) (req : Ctx) (st : ServerState)
        (files : List IncomingFile) (dbErr : Option String),
        (handleUpload dir1 req st files dbErr).1 =
          (handleUpload dir2 req st files dbErr).1) := by
  refine ⟨fun _ _ _ => rfl, ?_, ?_⟩
  · intro req st dbErr newPath
    cases dbErr with
    | some m => rfl
    | none =>
      simp only [handleImages]
      rw [sortByCreatedAtDesc_map (fun r => { r with path := newPath r }) (fun r => rfl),
        List.map_map]
      have hproj : projectRecord req ∘ (fun r => { r with path := newPath r }) =
          projectRecord req := by
        funext r
        rfl
      rw [hproj]
  · intro dir1 dir2 req st files dbErr
    cases files with
    | nil => rfl
    | cons f rest =>
      by_cases h1 : f.fieldname = "image"
      · rcases hf : fileFilter req f with _ | msg
        · by_cases h2 : MAX_FILE_SIZE < f.content.length
          · simp [handleUpload, multerSingle, h1, hf, h2]
          · by_cases h3 : rest.isEmpty
            · cases dbErr <;> simp [handleUpload, multerSingle, h1, hf, h2, h3]
            · simp [handleUpload, multerSingle, h1, hf, h2, h3]
        · simp [handleUpload, multerSingle, h1, hf]
      · simp [handleUpload, multerSingle, h1]

/-! ### Claim C6 -/

/-- Claim C6: a successful list request is answered with 200 and a body
whose keys are exactly success, count and images; images holds the
per-record projections with keys id, name, url, size, uploadedAt; and
count is the length of the images array. -/
theorem claim_C6_list_response_shape (req : Ctx) (st : ServerState) :
    (handleImages req st none).status = 200 ∧
    (handleImages req st none).body.keys = ["success", "count", "images"] ∧
    (handleImages req st none).body.getKey "count" =
      some (.num ((sortByCreatedAtDesc st.records).map (projectRecord req)).length) ∧
    (handleImages req st none).body.getKey "images" =
      some (.arr ((sortByCreatedAtDesc st.records).map (projectRecord req))) ∧
    ∀ r : ImageRecord,
      (projectRecord req r).keys = ["id", "name", "url", "size", "uploadedAt"] := by
  refine ⟨rfl, rfl, ?_, ?_, fun r => rfl⟩
  · simp [handleImages, Json.getKey, List.lookup]
  · simp [handleImages, Json.getKey, List.lookup]

/-! ### Claim C7 -/

/-- Claim C7 counterexample: with no file in the request, the handler
responds with the error message "No file uploaded or invalid file
type", not "No file uploaded" as claimed. -/
theorem claim_C7_counterexample :
    (handleUpload "uploads" sampleCtx initialState [] none).1.body.getKey "error" =
      some (.str "No file uploaded or invalid file type") ∧
    (handleUpload "uploads" sampleCtx initialState [] none).1.body.getKey "error" ≠
      some (.str "No file uploaded") := by
  refine ⟨rfl, ?_⟩
  intro h
  rw [show (handleUpload "uploads" sampleCtx initialState [] none).1.body.getKey "error" =
      some (.str "No file uploaded or invalid file type") from rfl] at h
  simp at h

/-- Claim C7 (amended): when no multipart field named image carries a
file the handler responds with HTTP status 400, and when the request
carries no file at all the error message is "No file uploaded or
invalid file type". -/
theorem claim_C7_amended_no_file_400 (dir : String) (req : Ctx) (st : ServerState)
    (dbErr : Option String) (files : List IncomingFile)
    (h : ∀ f ∈ files, f.fieldname ≠ "image") :
    (handleUpload dir req st files dbErr).1.status = 400 ∧
    (files = [] → (handleUpload dir req st files dbErr).1.body.getKey "error" =
      some (.str "No file uploaded or invalid file type")) := by
  cases files with
  | nil => exact ⟨rfl, fun _ => rfl⟩
  | cons f rest =>
    have hf := h f (List.mem_cons_self f rest)
    refine ⟨?_, by simp⟩
    simp [handleUpload, multerSingle, hf, errorMiddleware]

/-- Witness for the amended C7 at the empty upload request. -/
theorem claim_C7_witness :
    (handleUpload "uploads" devCtx initialState [] none).1.status = 400 ∧
    (([] : List IncomingFile) = [] →
      (handleUpload "uploads" devCtx initialState [] none).1.body.getKey "error" =
        some (.str "No file uploaded or invalid file type")) :=
  claim_C7_amended_no_file_400 "uploads" devCtx initialState none []
    (by intro f hf; simp at hf)

/-! ### Claim C8 -/

/-- Claim C8: in production mode no error response carries a details
field — for any two underlying error messages the responses coincide
and the details key is absent — while in development mode the raw error
message is included as details. -/
theorem claim_C8_details_production_suppressed :
    (∀ (req : Ctx) (st : ServerState) (m1 m2 : String), req.env = "production" →
        handleImages req st (some m1) = handleImages req st (some m2) ∧
        (handleImages req st (some m1)).body.getKey "details" = none) ∧
    (∀ (dir : String) (req : Ctx) (st : ServerState) (files : List IncomingFile)
        (m1 m2 : String), req.env = "production" →
        (handleUpload dir req st files (some m1)).1 =
          (handleUpload dir req st files (some m2)).1 ∧
        (handleUpload dir req st files (some m1)).1.body.getKey "details" = none) ∧
    (∀ m1 m2 : String,
        errorMiddleware "production" (.plainError m1) =
          errorMiddleware "production" (.plainError m2) ∧
        (errorMiddleware "production" (.plainError m1)).body.getKey "details" = none) ∧
    (∀ m : String, detailsField "development" m = [("details", .str m)]) := by
  refine ⟨?_, ?_, ?_, ?_⟩
  · intro req st m1 m2 henv
    constructor
    · simp [handleImages, detailsField, henv]
    · simp [handleImages, detailsField, henv, Json.getKey, List.lookup]
  · intro dir req st files m1 m2 henv
    rcases hm : multerSingle dir req files st with e | ⟨of, st1⟩
    · constructor
      · simp [handleUpload, hm]
      · rcases e with msg | msg <;>
          simp [handleUpload, hm, errorMiddleware, detailsField, henv,
            Json.getKey, List.lookup]
    · rcases of with _ | f
      · constructor
        · simp [handleUpload, hm]
        · simp [handleUpload, hm, Json.getKey, List.lookup]
      · constructor
        · simp [handleUpload, hm, detailsField, henv]
        · simp [handleUpload, hm, detailsField, henv, Json.getKey, List.lookup]
  · intro m1 m2
    constructor
    · simp [errorMiddleware, detailsField]
    · simp [errorMiddleware, detailsField, Json.getKey, List.lookup]
  · intro m
    simp [detailsField]

/-- Witness for C8: two distinct database failures in production mode
produce identical list responses with no details key. -/
theorem claim_C8_witness :
    handleImages sampleCtx initialState (some "db down") =
      handleImages sampleCtx initialState (some "other failure") ∧
    (handleImages sampleCtx initialState (some "db down")).body.getKey "details" = none :=
  claim_C8_details_production_suppressed.1 sampleCtx initialState
    "db down" "other failure" rfl

/-! ### Claim C9 -/

/-- Claim C9 counterexample: two uploads of distinct files that observe
the same Date.now() value and the same random draw receive the same
generated filename, so generated filenames are not unconditionally
unique. -/
theorem claim_C9_counterexample :
    "a.png" ≠ "b.png" ∧
    genFilename 1700000000000 123456789 "a.png" =
      genFilename 1700000000000 123456789 "b.png" :=
  ⟨by decide, rfl⟩

/-- Claim C9 (amended): the generated filename preserves the original
file's extension, and two uploads of any two files collide only when
they observe both the same timestamp and the same random draw —
distinct (Date.now(), random) pairs never collide, whatever the files'
names and extensions, so uniqueness is probabilistic, not guaranteed. -/
theorem claim_C9_amended_filename_unique_per_draw (t1 r1 t2 r2 : Nat) (n1 n2 : String)
    (hne : t1 ≠ t2 ∨ r1 ≠ r2) :
    genFilename t1 r1 n1 ≠ genFilename t2 r2 n2 ∧
    ∃ stem : String, genFilename t1 r1 n1 = stem ++ extname n1 ∧ stem ≠ "" := by
  constructor
  · intro h
    obtain ⟨ht, hr, _⟩ := genFilename_inj h
    rcases hne with hne | hne
    · exact hne ht
    · exact hne hr
  · refine ⟨Nat.repr t1 ++ "-" ++ Nat.repr r1, rfl, ?_⟩
    intro hstem
    have hd := congrArg String.data hstem
    simp [String.data_append] at hd

/-- Witness for the amended C9 at distinct concrete draws and files
with different extensions. -/
theorem claim_C9_witness :
    genFilename 1 2 "a.png" ≠ genFilename 3 4 "b.txt" ∧
    ∃ stem : String, genFilename 1 2 "a.png" = stem ++ extname "a.png" ∧ stem ≠ "" :=
  claim_C9_amended_filename_unique_per_draw 1 2 3 4 "a.png" "b.txt"
    (Or.inl (by decide))

/-! ### Claim C10 -/

/-- Claim C10: the validator's decision is a function of the declared
media type alone — identical declared types yield identical decisions
regardless of request, contents, size or original name. -/
theorem claim_C10_filter_mimetype_only (req1 req2 : Ctx) (f1 f2 : IncomingFile)
    (h : f1.mimetype = f2.mimetype) : fileFilter req1 f1 = fileFilter req2 f2 := by
  simp [fileFilter, h]

/-- Witness for C10: two files that agree only in declared type get the
same decision. -/
theorem claim_C10_witness : fileFilter sampleCtx bigJpeg = fileFilter devCtx smallJpeg :=
  claim_C10_filter_mimetype_only sampleCtx devCtx bigJpeg smallJpeg rfl

end ImageServer
